import Mathlib

/-!
Shallow embedding of the Intelligence-Lair school-threat-detection pipeline
(src/config.py, src/detector/alert.py, src/detector/yolo_detector.py,
src/detector/camera.py, src/app.py).

Python floats holding wall-clock times, confidences and frame rates are
modelled as exact rationals; the code under study only compares, subtracts
and divides these quantities, so no floating-point rounding is relevant to
the properties considered here.  Python dicts used as ledgers are modelled
as association lists with newest-binding-first lookup, and in-place object
mutation is modelled by explicit state passing.
-/

/-! ## src/detector/alert.py -/

/-- The Alert dataclass (alert.py lines 8-17). -/
structure Alert where
  id : String
  camera_id : String
  camera_name : String
  threat_type : String
  confidence : ℚ
  timestamp : ℚ
  acknowledged : Bool
deriving DecidableEq

/-- The plain-data snapshot produced by Alert.to_dict (alert.py lines 19-29).
The display field time_str of the Python dict is a pure strftime formatting
of timestamp and is abstracted away; no claim mentions it. -/
structure AlertDict where
  id : String
  camera_id : String
  camera_name : String
  threat_type : String
  confidence : ℚ
  timestamp : ℚ
  acknowledged : Bool
deriving DecidableEq

/-- Alert.to_dict (alert.py lines 19-29). -/
def Alert.to_dict (a : Alert) : AlertDict :=
  ⟨a.id, a.camera_id, a.camera_name, a.threat_type, a.confidence, a.timestamp,
    a.acknowledged⟩

/-- A socketio.emit of an event carrying an alert payload (app.py). -/
structure Emission where
  event : String
  payload : AlertDict
deriving DecidableEq

/-- The observable outcome of invoking one registered callback: whether it
returned normally (Except.ok) or raised (Except.error with the message),
together with the socket emissions it performed while running. -/
structure CbOutcome where
  result : Except String Unit
  events : List Emission

/-- A registered alert callback (alert.py line 46). -/
def Callback : Type := Alert → CbOutcome

/-- Lookup with default in the cooldown ledger, Python dict.get(k, 0)
(alert.py line 67). -/
def dictGetD (d : List (String × ℚ)) (k : String) (dflt : ℚ) : ℚ :=
  match d.find? (fun p => p.1 == k) with
  | some p => p.2
  | none => dflt

/-- Assignment d[k] = v in the cooldown ledger (alert.py line 83); the new
binding shadows any older one. -/
def dictSet (d : List (String × ℚ)) (k : String) (v : ℚ) : List (String × ℚ) :=
  (k, v) :: d

/-- Mutable state of AlertManager (alert.py lines 42-46). -/
structure AlertManager where
  cooldown_seconds : ℚ
  last_alert_time : List (String × ℚ)
  alerts : List Alert
  alert_counter : ℕ
  callbacks : List Callback

/-- AlertManager.__init__ (alert.py lines 35-46), with the callbacks that
register_callback has appended by the time of use. -/
def AlertManager.init (cooldown_seconds : ℚ) (callbacks : List Callback) :
    AlertManager :=
  ⟨cooldown_seconds, [], [], 0, callbacks⟩

/-- The last n elements of a list (Python slice l[-n:] for n > 0). -/
def lastN (n : ℕ) (l : List α) : List α := l.drop (l.length - n)

/-- The alert identifier assigned to counter value n (alert.py line 74). -/
def alertId (n : ℕ) : String := "alert_" ++ Nat.repr n

/-- The history trim of alert.py lines 86-87: keep only the last 100. -/
def pyTrim (l : List Alert) : List Alert :=
  if l.length > 100 then lastN 100 l else l

/-- Python list slice l[-count:] for a nonnegative int count.  For count = 0
Python evaluates l[-0:] = l[0:] = l (the whole list); for count > 0 it is
the last count elements. -/
def pySliceLast (l : List α) (count : ℕ) : List α :=
  if count = 0 then l else lastN count l

/-- AlertManager.check_and_alert (alert.py lines 52-97) at current wall-clock
time current_time.  Returns the created alert (none while in cooldown), the
updated manager state, and the outcome of each registered callback in
registration order: the try/except of lines 90-94 catches a raising callback
(an Except.error here), logs it, and continues with the next callback. -/
def check_and_alert (m : AlertManager) (camera_id camera_name threat_type : String)
    (confidence current_time : ℚ) :
    Option Alert × AlertManager × List CbOutcome :=
  let last_time := dictGetD m.last_alert_time camera_id 0
  if current_time - last_time < m.cooldown_seconds then
    (none, m, [])
  else
    let counter := m.alert_counter + 1
    let alert : Alert :=
      ⟨alertId counter, camera_id, camera_name, threat_type,
        confidence, current_time, false⟩
    let outcomes := m.callbacks.map (fun cb => cb alert)
    (some alert,
      { m with
          alert_counter := counter
          alerts := pyTrim (m.alerts ++ [alert])
          last_alert_time := dictSet m.last_alert_time camera_id current_time },
      outcomes)

/-- AlertManager.get_recent_alerts (alert.py lines 99-101). -/
def get_recent_alerts (m : AlertManager) (count : ℕ) : List AlertDict :=
  ((pySliceLast m.alerts count).reverse).map Alert.to_dict

/-- Set acknowledged on an alert (alert.py line 107). -/
def markAck (a : Alert) : Alert :=
  { a with acknowledged := true }

/-- The scan of AlertManager.acknowledge_alert over the history list
(alert.py lines 105-109): the first alert whose id matches is marked
acknowledged and True is returned; if none matches, False. -/
def ackFirst : List Alert → String → Bool × List Alert
  | [], _ => (false, [])
  | a :: rest, alert_id =>
    if a.id = alert_id then (true, markAck a :: rest)
    else
      let r := ackFirst rest alert_id
      (r.1, a :: r.2)

/-- AlertManager.acknowledge_alert (alert.py lines 103-109). -/
def acknowledge_alert (m : AlertManager) (alert_id : String) :
    Bool × AlertManager :=
  let r := ackFirst m.alerts alert_id
  (r.1, { m with alerts := r.2 })

/-- AlertManager.get_active_alert_count (alert.py lines 111-113). -/
def get_active_alert_count (m : AlertManager) : ℕ :=
  (m.alerts.filter (fun a => !a.acknowledged)).length

/-- One threat observation submitted to check_and_alert, with the wall-clock
time read at line 64 during that call. -/
structure ObsCall where
  camera_id : String
  camera_name : String
  threat_type : String
  confidence : ℚ
  time : ℚ

/-- Run a sequence of check_and_alert calls in order, collecting each
call's result. -/
def runCalls : AlertManager → List ObsCall → AlertManager × List (Option Alert)
  | m, [] => (m, [])
  | m, c :: cs =>
    let r := check_and_alert m c.camera_id c.camera_name c.threat_type
      c.confidence c.time
    let rest := runCalls r.2.1 cs
    (rest.1, r.1 :: rest.2)

/-- The accepted alerts among a list of call results, in acceptance order. -/
def acceptedOf (results : List (Option Alert)) : List Alert :=
  results.filterMap id

/-! ## src/config.py -/

/-- config.py line 47.  Not consulted by WeaponDetector.detect, which
hard-codes its own THREAT_CLASSES. -/
def WEAPON_CLASSES : List String := ["knife", "scissors", "fork"]

/-- config.py line 46. -/
def DETECTION_CONFIDENCE : ℚ := 35 / 100

/-- config.py line 50. -/
def ALERT_COOLDOWN : ℚ := 10

/-! ## src/detector/yolo_detector.py -/

/-- WeaponDetector.THREAT_CLASSES (yolo_detector.py line 24). -/
def THREAT_CLASSES : List String := ["knife", "scissors", "fork", "baseball bat"]

/-- Python str.lower() as the per-character lowercase map (what it does on
the ASCII class labels at hand). -/
def pyLower (s : String) : String := ⟨s.data.map Char.toLower⟩

/-- Python substring containment, needle in hay, over the characters. -/
def strContains (hay needle : String) : Bool :=
  hay.toList.tails.any (fun s => needle.toList.isPrefixOf s)

/-- The threat test of WeaponDetector.detect (yolo_detector.py lines 74-76):
some hard-coded threat class is a substring of the lowercased class label. -/
def isThreatLabel (class_name : String) : Bool :=
  THREAT_CLASSES.any (fun threat => strContains (pyLower class_name) threat)

/-- The threat policy as the specification's sentence for C5 words it: the
class label belongs to the configured threat-class set (config.py
WEAPON_CLASSES, the only threat-class set in the configuration surface). -/
def specIsThreat (class_name : String) : Bool :=
  WEAPON_CLASSES.contains class_name

/-- One raw box of the opaque model inference (yolo_detector.py lines 67-72):
class label, confidence, pixel-coordinate corners. -/
structure RawBox where
  cls : String
  conf : ℚ
  x1 : ℤ
  y1 : ℤ
  x2 : ℤ
  y2 : ℤ

/-- The Detection value (yolo_detector.py lines 8-16); the timestamp field
is not relevant to any claim and is omitted. -/
structure Detection where
  class_name : String
  confidence : ℚ
  bbox : ℤ × ℤ × ℤ × ℤ
  is_threat : Bool
deriving DecidableEq

/-- WeaponDetector.detect (yolo_detector.py lines 44-127) restricted to its
data outcome: the model inference of line 57 is the opaque input list of raw
boxes; the loop of lines 67-89 builds one Detection per box, classifying via
the substring test of lines 74-76.  The drawing on the annotated frame
(lines 91-125) does not affect the returned detections. -/
def detect (boxes : List RawBox) : List Detection :=
  boxes.map (fun b =>
    ⟨b.cls, b.conf, (b.x1, b.y1, b.x2, b.y2), isThreatLabel b.cls⟩)

/-- WeaponDetector.get_threats (yolo_detector.py lines 129-131). -/
def get_threats (ds : List Detection) : List Detection :=
  ds.filter (fun d => d.is_threat)

/-! ## src/detector/camera.py -/

/-- The per-stream mutable fields of CameraStream touched by _capture_loop,
frames abstracted to numeric identifiers. -/
structure CameraState where
  connected : Bool
  frame : Option ℕ
  last_frame_time : ℚ
  fps : ℚ
  reconnect_delay : ℚ
deriving DecidableEq

/-- Field initialisation of CameraStream.__init__ (camera.py lines 20-26)
together with the initial reconnect_delay of _capture_loop (line 111). -/
def CameraState.init : CameraState := ⟨false, none, 0, 0, 1⟩

/-- The externally visible event of one iteration of
CameraStream._capture_loop (camera.py lines 109-151) on the real-capture
path: the outcome of a _connect attempt while disconnected, or the outcome
of self.cap.read() while connected, with the wall-clock time read at
line 140. -/
inductive CamEvent
  | connectOk
  | connectFail
  | readOk (frameId : ℕ) (t : ℚ)
  | readFail
deriving DecidableEq

/-- The state change of one _capture_loop iteration (camera.py lines
114-147): a successful connect resets the backoff delay to 1 (lines
116-117); a failed connect doubles it up to the ceiling 30 (line 120); a
successful read stores the frame and recomputes fps from the delta with the
previous capture time whenever last_frame_time > 0 (lines 136-143) - note
that nothing ever resets last_frame_time after a disconnection or
reconnection; a failed read marks the camera disconnected (lines 144-147). -/
def camStep (s : CameraState) (e : CamEvent) : CameraState :=
  match e with
  | .connectOk =>
      if s.connected then s
      else { s with connected := true, reconnect_delay := 1 }
  | .connectFail =>
      if s.connected then s
      else { s with reconnect_delay := min (s.reconnect_delay * 2) 30 }
  | .readOk f t =>
      if s.connected then
        { s with
            frame := some f
            fps := if s.last_frame_time > 0 then 1 / (t - s.last_frame_time)
              else s.fps
            last_frame_time := t }
      else s
  | .readFail =>
      if s.connected then { s with connected := false } else s

/-- A run of _capture_loop iterations from a starting state. -/
def camRun (s : CameraState) (es : List CamEvent) : CameraState :=
  es.foldl camStep s

/-! ## src/app.py -/

/-- The callback registered at app.py line 129: on_alert (lines 125-126)
emits the alert as a "new_alert" socket event and returns normally. -/
def on_alert : Callback :=
  fun a => ⟨Except.ok (), [⟨"new_alert", a.to_dict⟩]⟩

/-- Handling of one threat inside process_camera (app.py lines 50-59): call
check_and_alert - whose callback loop invokes every callback registered on
alert_manager, collecting their emissions - and, if an alert was returned,
emit "new_alert" once more from the loop body (lines 57-59).  Returns the
updated manager and all emissions in the order they happen. -/
def processThreat (m : AlertManager) (camera_id camera_name threat_type : String)
    (conf t : ℚ) : AlertManager × List Emission :=
  let r := check_and_alert m camera_id camera_name threat_type conf t
  match r.1 with
  | none => (r.2.1, (r.2.2.map CbOutcome.events).flatten)
  | some a => (r.2.1, (r.2.2.map CbOutcome.events).flatten ++ [⟨"new_alert", a.to_dict⟩])

/-! ## Interleaved execution of check_and_alert (claim C2)

app.py line 120 starts one Python thread per camera, every one calling
check_and_alert on the single shared alert_manager; AlertManager takes no
lock.  CPython's global interpreter lock makes each bytecode instruction
atomic but can switch threads between instructions, so the method body is
a sequence of atomic micro-steps over the shared state.  In particular
line 72, self.alert_counter += 1, is a read-modify-write of two separate
instructions (a load of the attribute and a store of the incremented
value), and line 74 reads self.alert_counter again for the id string. -/

/-- The interleaving-sensitive micro-steps of one thread running
check_and_alert: the cooldown check of lines 64-69, the load and the store
halves of line 72, and the construct-append-ledger block of lines 73-87
(which re-reads the shared counter for the id). -/
inductive ThreadOp
  | checkCooldown
  | loadCounter
  | storeCounter
  | createAppend
deriving DecidableEq

/-- One thread's private state: its call arguments, remaining micro-steps,
the privately held value loaded from the counter, and its return value. -/
structure ThreadState where
  camera_id : String
  camera_name : String
  threat_type : String
  confidence : ℚ
  time : ℚ
  prog : List ThreadOp
  reg : ℕ
  result : Option Alert

/-- A thread about to enter check_and_alert with the given arguments. -/
def newThread (camera_id camera_name threat_type : String) (conf t : ℚ) :
    ThreadState :=
  ⟨camera_id, camera_name, threat_type, conf, t,
    [.checkCooldown, .loadCounter, .storeCounter, .createAppend], 0, none⟩

/-- Execute the next micro-step of one thread against the shared manager. -/
def opStep (m : AlertManager) (th : ThreadState) : AlertManager × ThreadState :=
  match th.prog with
  | [] => (m, th)
  | op :: rest =>
    match op with
    | .checkCooldown =>
        let last_time := dictGetD m.last_alert_time th.camera_id 0
        if th.time - last_time < m.cooldown_seconds then
          (m, { th with prog := [], result := none })
        else (m, { th with prog := rest })
    | .loadCounter =>
        (m, { th with reg := m.alert_counter, prog := rest })
    | .storeCounter =>
        ({ m with alert_counter := th.reg + 1 }, { th with prog := rest })
    | .createAppend =>
        let alert : Alert :=
          ⟨alertId m.alert_counter, th.camera_id, th.camera_name,
            th.threat_type, th.confidence, th.time, false⟩
        ({ m with
             alerts := pyTrim (m.alerts ++ [alert])
             last_alert_time := dictSet m.last_alert_time th.camera_id th.time },
         { th with prog := rest, result := some alert })

/-- Run two threads under a schedule: true picks thread A for its next
micro-step, false picks thread B. -/
def schedRun : List Bool → AlertManager → ThreadState → ThreadState →
    AlertManager × ThreadState × ThreadState
  | [], m, a, b => (m, a, b)
  | true :: s, m, a, b =>
      let r := opStep m a
      schedRun s r.1 r.2 b
  | false :: s, m, a, b =>
      let r := opStep m b
      schedRun s r.1 a r.2

/-! ## Decimal representation: Nat.repr is injective

The alert identifiers of alert.py line 74 are the strings
"alert_" ++ Nat.repr counter, so distinctness of identifiers reduces to the
injectivity of the decimal printer, proved here by a decode round trip. -/

/-- Most-significant-first decimal digit characters of n, the list that
Nat.toDigitsCore builds when given sufficient fuel. -/
def repChars (n : ℕ) : List Char :=
  if _h : n < 10 then [Nat.digitChar n]
  else repChars (n / 10) ++ [Nat.digitChar (n % 10)]
termination_by n
decreasing_by exact Nat.div_lt_self (by omega) (by omega)

lemma toDigitsCore_eq_repChars :
    ∀ (f n : ℕ), n < 10 ^ (f + 1) → ∀ ds : List Char,
      Nat.toDigitsCore 10 (f + 1) n ds = repChars n ++ ds := by
  intro f
  induction f with
  | zero =>
    intro n hn ds
    have h10 : n < 10 := by simpa using hn
    have hdiv : n / 10 = 0 := Nat.div_eq_of_lt h10
    have hmod : n % 10 = n := Nat.mod_eq_of_lt h10
    simp [Nat.toDigitsCore, hdiv, hmod, repChars, h10]
  | succ f ih =>
    intro n hn ds
    by_cases h10 : n < 10
    · have hdiv : n / 10 = 0 := Nat.div_eq_of_lt h10
      have hmod : n % 10 = n := Nat.mod_eq_of_lt h10
      simp [Nat.toDigitsCore, hdiv, hmod, repChars, h10]
    · have hge : 10 ≤ n := Nat.le_of_not_lt h10
      have hdiv : ¬ n / 10 = 0 := by
        have h1 : 1 ≤ n / 10 := (Nat.one_le_div_iff (by norm_num)).mpr hge
        omega
      have hlt : n / 10 < 10 ^ (f + 1) := by
        rw [Nat.div_lt_iff_lt_mul (by norm_num : (0 : ℕ) < 10)]
        calc n < 10 ^ (f + 1 + 1) := hn
          _ = 10 ^ (f + 1) * 10 := pow_succ 10 (f + 1)
      have hstep : Nat.toDigitsCore 10 (f + 1 + 1) n ds
          = Nat.toDigitsCore 10 (f + 1) (n / 10) (Nat.digitChar (n % 10) :: ds) := by
        simp [Nat.toDigitsCore, hdiv]
      rw [hstep, ih (n / 10) hlt]
      conv_rhs => rw [repChars]
      simp [h10, List.append_assoc]

lemma toDigits_eq_repChars (n : ℕ) : Nat.toDigits 10 n = repChars n := by
  have hub : n < 10 ^ (n + 1) := by
    calc n < 10 ^ n := Nat.lt_pow_self (by norm_num) n
      _ ≤ 10 ^ (n + 1) := Nat.pow_le_pow_right (by norm_num) (Nat.le_succ n)
  have := toDigitsCore_eq_repChars n n hub []
  simpa [Nat.toDigits] using this

/-- Decimal value of a digit character (inverse of Nat.digitChar below 10). -/
def decDigitVal (c : Char) : ℕ := c.toNat - 48

/-- Decode a most-significant-first decimal digit string onto an
accumulator. -/
def decodeAux (acc : ℕ) (l : List Char) : ℕ :=
  l.foldl (fun a c => 10 * a + decDigitVal c) acc

lemma decDigitVal_digitChar : ∀ d : ℕ, d < 10 → decDigitVal (Nat.digitChar d) = d := by
  decide

lemma decodeAux_repChars (n : ℕ) :
    ∀ acc : ℕ, decodeAux acc (repChars n) = acc * 10 ^ (repChars n).length + n := by
  induction n using Nat.strong_induction_on with
  | _ n ih =>
    intro acc
    by_cases h10 : n < 10
    · rw [repChars]
      simp [h10, decodeAux, decDigitVal_digitChar n h10, Nat.mul_comm]
    · have hpos : 0 < n := by omega
      have hdec : n / 10 < n := Nat.div_lt_self hpos (by norm_num)
      rw [repChars]
      simp only [h10, dif_neg, not_false_iff]
      rw [decodeAux, List.foldl_append]
      have hfold : List.foldl (fun a c => 10 * a + decDigitVal c) acc (repChars (n / 10))
          = acc * 10 ^ (repChars (n / 10)).length + n / 10 := ih (n / 10) hdec acc
      rw [hfold]
      simp only [List.foldl_cons, List.foldl_nil, List.length_append, List.length_cons,
        List.length_nil]
      rw [decDigitVal_digitChar (n % 10) (Nat.mod_lt n (by norm_num))]
      have hnm : 10 * (n / 10) + n % 10 = n := Nat.div_add_mod n 10
      ring_nf
      omega

lemma repChars_injective : Function.Injective repChars := by
  intro a b h
  have ha := decodeAux_repChars a 0
  have hb := decodeAux_repChars b 0
  rw [h] at ha
  rw [ha] at hb
  simpa using hb

lemma natRepr_injective : Function.Injective Nat.repr := by
  intro a b h
  have hdata : (Nat.toDigits 10 a).asString.data = (Nat.toDigits 10 b).asString.data :=
    congrArg String.data h
  have hto : Nat.toDigits 10 a = Nat.toDigits 10 b := by
    simpa [List.asString] using hdata
  rw [toDigits_eq_repChars, toDigits_eq_repChars] at hto
  exact repChars_injective hto

lemma alertId_injective : Function.Injective alertId := by
  intro a b h
  have hdata : ("alert_" ++ Nat.repr a).data = ("alert_" ++ Nat.repr b).data :=
    congrArg String.data h
  simp only [String.data_append] at hdata
  exact natRepr_injective (String.ext (List.append_cancel_left hdata))

/-! ## Characterisation of single check_and_alert calls -/

lemma dictGetD_nil (k : String) (dflt : ℚ) : dictGetD [] k dflt = dflt := rfl

lemma dictGetD_set_same (d : List (String × ℚ)) (k : String) (v dflt : ℚ) :
    dictGetD (dictSet d k v) k dflt = v := by
  simp [dictGetD, dictSet, List.find?]

lemma dictGetD_set_ne (d : List (String × ℚ)) (k k' : String) (v dflt : ℚ)
    (hne : k' ≠ k) : dictGetD (dictSet d k v) k' dflt = dictGetD d k' dflt := by
  have : (k == k') = false := by
    simp [Ne.symm hne]
  simp [dictGetD, dictSet, List.find?, this]

lemma check_and_alert_suppressed (m : AlertManager) (cam nm ty : String)
    (conf t : ℚ)
    (h : t - dictGetD m.last_alert_time cam 0 < m.cooldown_seconds) :
    check_and_alert m cam nm ty conf t = (none, m, []) := by
  simp [check_and_alert, h]

/-- The alert created by an accepting call (alert.py lines 72-80). -/
def newAlert (m : AlertManager) (cam nm ty : String) (conf t : ℚ) : Alert :=
  ⟨alertId (m.alert_counter + 1), cam, nm, ty, conf, t, false⟩

/-- The manager state after an accepting call (alert.py lines 72-87). -/
def acceptState (m : AlertManager) (cam nm ty : String) (conf t : ℚ) :
    AlertManager :=
  { m with
      alert_counter := m.alert_counter + 1
      alerts := pyTrim (m.alerts ++ [newAlert m cam nm ty conf t])
      last_alert_time := dictSet m.last_alert_time cam t }

lemma check_and_alert_accepted (m : AlertManager) (cam nm ty : String)
    (conf t : ℚ)
    (h : ¬ (t - dictGetD m.last_alert_time cam 0 < m.cooldown_seconds)) :
    check_and_alert m cam nm ty conf t =
      (some (newAlert m cam nm ty conf t), acceptState m cam nm ty conf t,
        m.callbacks.map (fun cb => cb (newAlert m cam nm ty conf t))) := by
  simp [check_and_alert, h, newAlert, acceptState]

lemma acceptState_cooldown (m : AlertManager) (cam nm ty : String) (conf t : ℚ) :
    (acceptState m cam nm ty conf t).cooldown_seconds = m.cooldown_seconds := rfl

lemma acceptState_ledger_same (m : AlertManager) (cam nm ty : String)
    (conf t : ℚ) :
    dictGetD (acceptState m cam nm ty conf t).last_alert_time cam 0 = t := by
  simp [acceptState, dictGetD_set_same]

/-! ## Cooldown behaviour over call sequences (claim C1) -/

/-- A threat observation on one fixed camera at time t. -/
def mkObs (cam nm ty : String) (conf : ℚ) (t : ℚ) : ObsCall :=
  ⟨cam, nm, ty, conf, t⟩

lemma runCalls_nil (m : AlertManager) : runCalls m [] = (m, []) := rfl

lemma runCalls_cons (m : AlertManager) (c : ObsCall) (cs : List ObsCall) :
    runCalls m (c :: cs) =
      ((runCalls (check_and_alert m c.camera_id c.camera_name c.threat_type
          c.confidence c.time).2.1 cs).1,
        (check_and_alert m c.camera_id c.camera_name c.threat_type
          c.confidence c.time).1 ::
        (runCalls (check_and_alert m c.camera_id c.camera_name c.threat_type
          c.confidence c.time).2.1 cs).2) := rfl

/-- While every remaining observation time is within the cooldown of the
camera's current ledger entry, every call is suppressed and the state is
untouched. -/
lemma run_suppressed_window (cam nm ty : String) (conf : ℚ) :
    ∀ (ts : List ℚ) (m : AlertManager),
      (∀ t ∈ ts, t - dictGetD m.last_alert_time cam 0 < m.cooldown_seconds) →
      runCalls m (ts.map (mkObs cam nm ty conf)) = (m, ts.map (fun _ => none)) := by
  intro ts
  induction ts with
  | nil => intro m _; rfl
  | cons t ts ih =>
    intro m h
    have hsup := check_and_alert_suppressed m cam nm ty conf t
      (h t (List.mem_cons_self t ts))
    have hrest := ih m (fun u hu => h u (List.mem_cons_of_mem t hu))
    simp [runCalls_cons, mkObs, hsup, hrest]

/-- First observation clears the cooldown, the remaining ones sit inside the
cooldown window opened by it: exactly the first is accepted. -/
lemma run_window_exactly_one (m : AlertManager) (cam nm ty : String)
    (conf : ℚ) (t0 : ℚ) (ts : List ℚ)
    (hfirst : ¬ (t0 - dictGetD m.last_alert_time cam 0 < m.cooldown_seconds))
    (hwin : ∀ t ∈ ts, t - t0 < m.cooldown_seconds) :
    runCalls m ((t0 :: ts).map (mkObs cam nm ty conf)) =
      (acceptState m cam nm ty conf t0,
        some (newAlert m cam nm ty conf t0) :: ts.map (fun _ => none)) := by
  have hacc := check_and_alert_accepted m cam nm ty conf t0 hfirst
  have hrest := run_suppressed_window cam nm ty conf ts
    (acceptState m cam nm ty conf t0)
    (by
      intro u hu
      rw [acceptState_ledger_same, acceptState_cooldown]
      exact hwin u hu)
  simp [runCalls_cons, mkObs, hacc, hrest]

/-- Observations spaced strictly more than the cooldown apart, the first of
which clears the cooldown: every one is accepted. -/
lemma run_spaced_all_accepted (cam nm ty : String) (conf : ℚ) (cd : ℚ) :
    ∀ (ts : List ℚ) (m : AlertManager), m.cooldown_seconds = cd →
      (∀ t0, ts.head? = some t0 →
        ¬ (t0 - dictGetD m.last_alert_time cam 0 < m.cooldown_seconds)) →
      ts.Chain' (fun a b => cd < b - a) →
      ∀ r ∈ (runCalls m (ts.map (mkObs cam nm ty conf))).2, r.isSome := by
  intro ts
  induction ts with
  | nil => intro m _ _ _ r hr; simp [runCalls_nil] at hr
  | cons t ts ih =>
    intro m hcd hhead hchain r hr
    have hfirst := hhead t rfl
    have hacc := check_and_alert_accepted m cam nm ty conf t hfirst
    have hchain' : ts.Chain' (fun a b => cd < b - a) := hchain.tail
    have hnext : ∀ t1, ts.head? = some t1 →
        ¬ (t1 - dictGetD (acceptState m cam nm ty conf t).last_alert_time cam 0
          < (acceptState m cam nm ty conf t).cooldown_seconds) := by
      intro t1 hh1
      rw [acceptState_ledger_same, acceptState_cooldown, hcd]
      have hgap : cd < t1 - t := by
        rcases ts with _ | ⟨u, us⟩
        · simp at hh1
        · have := List.chain'_cons.mp hchain
          simp at hh1
          rw [← hh1]
          exact this.1
      linarith
    have hrest := ih (acceptState m cam nm ty conf t)
      (by rw [acceptState_cooldown, hcd]) hnext hchain'
    rw [List.map_cons, runCalls_cons] at hr
    simp only [mkObs, hacc] at hr
    rcases List.mem_cons.mp hr with h1 | h2
    · rw [h1]; rfl
    · exact hrest r h2

/-- Claim C1, counterexample to the claim as stated: a fresh manager with
cooldown 10 has no ledger entry for cam1, so the default last-alert time is
the absolute epoch 0, not "far in the past" relative to the observation
clock; two observations at times 1 and 2 (a window of length 1 < 10 on one
camera) are then BOTH suppressed by the cooldown test against 0, so 0
alerts are accepted where the claim demands exactly 1. -/
theorem C1_counterexample :
    ((2 : ℚ) - 1 < 10) ∧
    (acceptedOf (runCalls (AlertManager.init 10 [])
      (([1, 2] : List ℚ).map (mkObs "cam1" "Main Entrance" "knife" 1))).2).length = 0 ∧
    ¬ (acceptedOf (runCalls (AlertManager.init 10 [])
      (([1, 2] : List ℚ).map (mkObs "cam1" "Main Entrance" "knife" 1))).2).length = 1 := by
  have hwin : ∀ t ∈ ([1, 2] : List ℚ),
      t - dictGetD (AlertManager.init 10 []).last_alert_time "cam1" 0
        < (AlertManager.init 10 []).cooldown_seconds := by
    intro t ht
    fin_cases ht <;> norm_num [AlertManager.init, dictGetD]
  have hrun := run_suppressed_window "cam1" "Main Entrance" "knife" 1
    ([1, 2] : List ℚ) (AlertManager.init 10 []) hwin
  refine ⟨by norm_num, ?_, ?_⟩ <;> (rw [hrun]; simp [acceptedOf])

/-- Claim C1 (amended).  Per call: if now minus the ledger entry for the
camera (0 when absent) is strictly below cooldown_seconds the call returns
none and leaves the whole manager state untouched, otherwise it returns a
new alert, appends it to the (trimmed) history and writes now into the
ledger.  Consequently - PROVIDED the first observation itself clears the
cooldown against the camera's current ledger entry - a sequence of N
same-camera observations within a window shorter than the cooldown gets
exactly its first observation accepted and the other N-1 return none, and
observations spaced strictly more than the cooldown apart are all
accepted. -/
theorem C1_cooldown_policy :
    (∀ (m : AlertManager) (cam nm ty : String) (conf t : ℚ),
      t - dictGetD m.last_alert_time cam 0 < m.cooldown_seconds →
      check_and_alert m cam nm ty conf t = (none, m, [])) ∧
    (∀ (m : AlertManager) (cam nm ty : String) (conf t : ℚ),
      ¬ (t - dictGetD m.last_alert_time cam 0 < m.cooldown_seconds) →
      check_and_alert m cam nm ty conf t =
        (some (newAlert m cam nm ty conf t), acceptState m cam nm ty conf t,
          m.callbacks.map (fun cb => cb (newAlert m cam nm ty conf t)))) ∧
    (∀ (m : AlertManager) (cam nm ty : String) (conf t0 : ℚ) (ts : List ℚ),
      ¬ (t0 - dictGetD m.last_alert_time cam 0 < m.cooldown_seconds) →
      (∀ t ∈ ts, t - t0 < m.cooldown_seconds) →
      (runCalls m ((t0 :: ts).map (mkObs cam nm ty conf))).2 =
        some (newAlert m cam nm ty conf t0) :: ts.map (fun _ => none)) ∧
    (∀ (m : AlertManager) (cam nm ty : String) (conf : ℚ) (ts : List ℚ),
      (∀ t0, ts.head? = some t0 →
        ¬ (t0 - dictGetD m.last_alert_time cam 0 < m.cooldown_seconds)) →
      ts.Chain' (fun a b => m.cooldown_seconds < b - a) →
      ∀ r ∈ (runCalls m (ts.map (mkObs cam nm ty conf))).2, r.isSome) := by
  refine ⟨check_and_alert_suppressed, check_and_alert_accepted, ?_, ?_⟩
  · intro m cam nm ty conf t0 ts hfirst hwin
    have := run_window_exactly_one m cam nm ty conf t0 ts hfirst hwin
    exact congrArg Prod.snd this
  · intro m cam nm ty conf ts hhead hchain
    exact run_spaced_all_accepted cam nm ty conf m.cooldown_seconds ts m rfl
      hhead hchain

/-- Concrete instance of C1_cooldown_policy: from a fresh manager with
cooldown 10, observations on cam1 at times 20, 21, 25 (window below the
cooldown, first observation clearing it) produce exactly one accepted
alert followed by two suppressions. -/
theorem C1_cooldown_policy_witness :
    (runCalls (AlertManager.init 10 [])
        (((20 : ℚ) :: [21, 25]).map (mkObs "cam1" "Main Entrance" "knife" 1))).2 =
      some (newAlert (AlertManager.init 10 []) "cam1" "Main Entrance" "knife" 1 20)
        :: ([(21 : ℚ), 25]).map (fun _ => none) :=
  C1_cooldown_policy.2.2.1 (AlertManager.init 10 []) "cam1" "Main Entrance"
    "knife" 1 20 [21, 25]
    (by norm_num [AlertManager.init, dictGetD])
    (by intro t ht; fin_cases ht <;> norm_num [AlertManager.init])

/-! ## Threat classification (claim C5) -/

lemma strContains_iff (hay needle : String) :
    strContains hay needle = true ↔ needle.toList <:+: hay.toList := by
  rw [List.infix_iff_prefix_suffix]
  simp only [strContains, List.any_eq_true, List.mem_tails,
    List.isPrefixOf_iff_prefix]
  constructor
  · rintro ⟨s, hsuf, hpre⟩
    exact ⟨s, hpre, hsuf⟩
  · rintro ⟨s, hpre, hsuf⟩
    exact ⟨s, hsuf, hpre⟩

/-- Claim C5, counterexample to the claim as stated: for the class label
forklift, the substring test of yolo_detector.py line 76 fires (the threat
class fork occurs inside forklift), so detect marks the detection a threat,
yet forklift belongs to neither the detector's hard-coded THREAT_CLASSES
nor the configured WEAPON_CLASSES of config.py - so is_threat is not
equivalent to membership of the label in the configured threat-class set. -/
theorem C5_counterexample :
    (detect [⟨"forklift", 1, 0, 0, 1, 1⟩]).map Detection.is_threat = [true] ∧
    "forklift" ∉ THREAT_CLASSES ∧
    "forklift" ∉ WEAPON_CLASSES ∧
    specIsThreat "forklift" = false := by
  refine ⟨?_, by decide, by decide, by decide⟩
  decide

/-- Claim C5 (amended): for every Detection produced by detect, is_threat
is true if and only if some member of the detector's hard-coded set
THREAT_CLASSES (knife, scissors, fork, baseball bat - not the configured
WEAPON_CLASSES) occurs as a SUBSTRING of the lowercased class label. -/
theorem C5_threat_policy :
    ∀ (boxes : List RawBox) (d : Detection), d ∈ detect boxes →
      d.is_threat = isThreatLabel d.class_name ∧
      (d.is_threat = true ↔
        ∃ t ∈ THREAT_CLASSES, t.toList <:+: (pyLower d.class_name).toList) := by
  intro boxes d hd
  rcases List.mem_map.mp hd with ⟨b, _, rfl⟩
  refine ⟨rfl, ?_⟩
  simp only [isThreatLabel, List.any_eq_true, strContains_iff]

/-- Concrete instance of C5_threat_policy at the detection produced from a
knife box. -/
theorem C5_threat_policy_witness :
    (⟨"knife", 1, (0, 0, 1, 1), true⟩ : Detection).is_threat
        = isThreatLabel (⟨"knife", 1, (0, 0, 1, 1), true⟩ : Detection).class_name ∧
    ((⟨"knife", 1, (0, 0, 1, 1), true⟩ : Detection).is_threat = true ↔
      ∃ t ∈ THREAT_CLASSES, t.toList <:+:
        (pyLower (⟨"knife", 1, (0, 0, 1, 1), true⟩ : Detection).class_name).toList) :=
  C5_threat_policy [⟨"knife", 1, 0, 0, 1, 1⟩] ⟨"knife", 1, (0, 0, 1, 1), true⟩
    (by decide)

/-! ## get_recent_alerts (claim C8) -/

/-- Claim C8, counterexample to the claim as stated: Python evaluates the
slice self.alerts[-count:] at count = 0 as alerts[0:], the WHOLE history,
because -0 == 0.  A manager holding one alert therefore answers
get_recent_alerts(0) with 1 alert, not with at most 0. -/
theorem C8_counterexample :
    (get_recent_alerts
      ⟨10, [("cam1", 100)],
        [⟨"alert_1", "cam1", "Main Entrance", "knife", 1, 100, false⟩], 1, []⟩
      0).length = 1 ∧
    ¬ (get_recent_alerts
      ⟨10, [("cam1", 100)],
        [⟨"alert_1", "cam1", "Main Entrance", "knife", 1, 100, false⟩], 1, []⟩
      0).length ≤ 0 := by
  constructor <;> decide

lemma lastN_length (l : List α) (n : ℕ) :
    (lastN n l).length = min n l.length := by
  simp [lastN]
  omega

lemma lastN_reverse_getElem (l : List α) (c k : ℕ)
    (hk : k < (lastN c l).length) :
    ((lastN c l).reverse)[k]? = l[l.length - 1 - k]? := by
  simp only [lastN] at hk ⊢
  rw [List.getElem?_reverse hk, List.getElem?_drop]
  congr 1
  simp only [List.length_drop] at hk ⊢
  omega

/-- Claim C8 (amended): for every POSITIVE count, get_recent_alerts returns
the to_dict snapshots of the last min(count, len) retained alerts in
most-recent-first order - at most count of them, the k-th entry being the
snapshot of the alert at distance k from the newest end of the history.
(At count = 0 the Python slice [-0:] returns the whole history instead,
see the counterexample.) -/
theorem C8_recent_alerts :
    ∀ (m : AlertManager) (count : ℕ), count ≠ 0 →
      get_recent_alerts m count = ((lastN count m.alerts).reverse).map Alert.to_dict ∧
      (get_recent_alerts m count).length = min count m.alerts.length ∧
      (get_recent_alerts m count).length ≤ count ∧
      (∀ k, k < (get_recent_alerts m count).length →
        (get_recent_alerts m count)[k]? =
          (m.alerts[m.alerts.length - 1 - k]?).map Alert.to_dict) := by
  intro m count hc
  have heq : get_recent_alerts m count
      = ((lastN count m.alerts).reverse).map Alert.to_dict := by
    simp [get_recent_alerts, pySliceLast, hc]
  have hlen : (get_recent_alerts m count).length = min count m.alerts.length := by
    rw [heq]
    simp [lastN_length]
  refine ⟨heq, hlen, by omega, ?_⟩
  intro k hk
  have hk' : k < (lastN count m.alerts).length := by
    rw [hlen] at hk
    rw [lastN_length]
    exact hk
  rw [heq, List.getElem?_map, lastN_reverse_getElem m.alerts count k hk']

/-- Concrete instance of C8_recent_alerts: a two-alert history queried with
count = 1 returns exactly the newest alert's snapshot. -/
theorem C8_recent_alerts_witness :
    get_recent_alerts
        ⟨10, [("cam1", 200)],
          [⟨"alert_1", "cam1", "Main Entrance", "knife", 1, 100, false⟩,
            ⟨"alert_2", "cam1", "Main Entrance", "knife", 1, 200, false⟩], 2, []⟩ 1
      = ((lastN 1
          [⟨"alert_1", "cam1", "Main Entrance", "knife", 1, 100, false⟩,
            ⟨"alert_2", "cam1", "Main Entrance", "knife", 1, 200, false⟩]).reverse).map
          Alert.to_dict :=
  (C8_recent_alerts
    ⟨10, [("cam1", 200)],
      [⟨"alert_1", "cam1", "Main Entrance", "knife", 1, 100, false⟩,
        ⟨"alert_2", "cam1", "Main Entrance", "knife", 1, 200, false⟩], 2, []⟩ 1
    (by decide)).1

/-! ## acknowledge_alert (claim C6) -/

lemma ackFirst_found_iff (i : String) :
    ∀ l : List Alert, ((ackFirst l i).1 = true ↔ ∃ a ∈ l, a.id = i) := by
  intro l
  induction l with
  | nil => simp [ackFirst]
  | cons a rest ih =>
    by_cases h : a.id = i
    · simp [ackFirst, h]
    · simp [ackFirst, h, ih]

lemma ackFirst_not_found (i : String) :
    ∀ l : List Alert, (∀ a ∈ l, a.id ≠ i) → ackFirst l i = (false, l) := by
  intro l
  induction l with
  | nil => intro _; rfl
  | cons a rest ih =>
    intro h
    have ha : a.id ≠ i := h a (List.mem_cons_self a rest)
    have hrest := ih (fun b hb => h b (List.mem_cons_of_mem a hb))
    simp [ackFirst, ha, hrest]

lemma ackFirst_first_match (i : String) :
    ∀ (l : List Alert) (k : ℕ) (hk : k < l.length),
      (l.get ⟨k, hk⟩).id = i →
      (∀ j (hj : j < l.length), j < k → (l.get ⟨j, hj⟩).id ≠ i) →
      ackFirst l i = (true, l.set k (markAck (l.get ⟨k, hk⟩))) := by
  intro l
  induction l with
  | nil => intro k hk; exact absurd hk (by simp)
  | cons a rest ih =>
    intro k hk hmatch hbefore
    cases k with
    | zero =>
      have ha : a.id = i := by simpa using hmatch
      simp [ackFirst, ha]
    | succ k =>
      have ha : a.id ≠ i := by
        have := hbefore 0 (by simp) (Nat.succ_pos k)
        simpa using this
      have hk' : k < rest.length := by simpa using hk
      have hmatch' : (rest.get ⟨k, hk'⟩).id = i := by simpa using hmatch
      have hbefore' : ∀ j (hj : j < rest.length), j < k →
          (rest.get ⟨j, hj⟩).id ≠ i := by
        intro j hj hjk
        have := hbefore (j + 1) (by simpa using Nat.succ_lt_succ hj)
          (Nat.succ_lt_succ hjk)
        simpa using this
      have hrec := ih k hk' hmatch' hbefore'
      simp [ackFirst, ha, hrec]

lemma markAck_idem (a : Alert) : markAck (markAck a) = markAck a := rfl

lemma ackFirst_idempotent (i : String) :
    ∀ l : List Alert, (ackFirst l i).1 = true →
      ackFirst (ackFirst l i).2 i = (true, (ackFirst l i).2) := by
  intro l
  induction l with
  | nil => intro h; exact absurd h (by simp [ackFirst])
  | cons a rest ih =>
    intro h
    by_cases ha : a.id = i
    · have hmark : (markAck a).id = i := ha
      simp [ackFirst, ha, hmark, markAck_idem]
    · have h' : (ackFirst rest i).1 = true := by
        simpa [ackFirst, ha] using h
      have := ih h'
      simp [ackFirst, ha, this]

/-- Claim C6: acknowledge_alert returns true exactly when some alert in the
history carries the id; on a miss it returns false and leaves the manager
untouched; on a hit it returns true and replaces the FIRST matching alert
by the same alert with acknowledged set - every other alert, every other
field, the counter, the cooldown and the ledger unchanged; and a second
acknowledgment of the same id returns true again and changes nothing
further. -/
theorem C6_acknowledge :
    (∀ (m : AlertManager) (i : String),
      ((acknowledge_alert m i).1 = true ↔ ∃ a ∈ m.alerts, a.id = i)) ∧
    (∀ (m : AlertManager) (i : String),
      (∀ a ∈ m.alerts, a.id ≠ i) → acknowledge_alert m i = (false, m)) ∧
    (∀ (m : AlertManager) (i : String) (k : ℕ) (hk : k < m.alerts.length),
      (m.alerts.get ⟨k, hk⟩).id = i →
      (∀ j (hj : j < m.alerts.length), j < k → (m.alerts.get ⟨j, hj⟩).id ≠ i) →
      acknowledge_alert m i =
        (true,
          { m with alerts := m.alerts.set k (markAck (m.alerts.get ⟨k, hk⟩)) })) ∧
    (∀ a : Alert, (markAck a).id = a.id ∧ (markAck a).camera_id = a.camera_id ∧
      (markAck a).camera_name = a.camera_name ∧
      (markAck a).threat_type = a.threat_type ∧
      (markAck a).confidence = a.confidence ∧
      (markAck a).timestamp = a.timestamp ∧
      (markAck a).acknowledged = true) ∧
    (∀ (m : AlertManager) (i : String), (acknowledge_alert m i).1 = true →
      acknowledge_alert (acknowledge_alert m i).2 i
        = (true, (acknowledge_alert m i).2)) := by
  refine ⟨?_, ?_, ?_, ?_, ?_⟩
  · intro m i
    simpa [acknowledge_alert] using ackFirst_found_iff i m.alerts
  · intro m i h
    simp [acknowledge_alert, ackFirst_not_found i m.alerts h]
  · intro m i k hk hmatch hbefore
    simp [acknowledge_alert, ackFirst_first_match i m.alerts k hk hmatch hbefore]
  · intro a
    simp [markAck]
  · intro m i h
    have h1 : (ackFirst m.alerts i).1 = true := by
      simpa [acknowledge_alert] using h
    have := ackFirst_idempotent i m.alerts h1
    simp [acknowledge_alert, this]

/-- Concrete instance of C6_acknowledge: re-acknowledging alert_1 in a
one-alert history succeeds again and changes nothing further. -/
theorem C6_acknowledge_witness :
    acknowledge_alert
        (acknowledge_alert
          ⟨10, [("cam1", 100)],
            [⟨"alert_1", "cam1", "Main Entrance", "knife", 1, 100, false⟩], 1, []⟩
          "alert_1").2 "alert_1"
      = (true,
        (acknowledge_alert
          ⟨10, [("cam1", 100)],
            [⟨"alert_1", "cam1", "Main Entrance", "knife", 1, 100, false⟩], 1, []⟩
          "alert_1").2) :=
  C6_acknowledge.2.2.2.2
    ⟨10, [("cam1", 100)],
      [⟨"alert_1", "cam1", "Main Entrance", "knife", 1, 100, false⟩], 1, []⟩
    "alert_1" (by decide)

/-! ## Callback isolation (claim C7) -/

/-- An observer callback that raises (its exception is caught at alert.py
line 93). -/
def cbFail : Callback := fun _ => ⟨Except.error "boom", []⟩

/-- An observer callback that returns normally. -/
def cbOk : Callback := fun _ => ⟨Except.ok (), []⟩

/-- The appended alert survives the history trim. -/
lemma mem_pyTrim_append (l : List Alert) (a : Alert) :
    a ∈ pyTrim (l ++ [a]) := by
  have hb : (l ++ [a]).length - 100 ≤ l.length := by
    simp
  unfold pyTrim lastN
  split
  · rw [List.drop_append_of_le_length hb]
    exact List.mem_append_right _ (List.mem_singleton_self a)
  · exact List.mem_append_right _ (List.mem_singleton_self a)

/-- Claim C7: on an accepting call the alert is returned with history and
ledger already updated, and the outcome list pairs every registered
callback, in order, with its own result on the new alert - the k-th outcome
is exactly the k-th callback applied to the alert, whatever the other
callbacks did, so a raising callback (Except.error, caught by the
try/except of alert.py lines 91-94) neither aborts the acceptance nor
keeps any other callback from its single invocation. -/
theorem C7_callback_isolation :
    ∀ (m : AlertManager) (cam nm ty : String) (conf t : ℚ),
      ¬ (t - dictGetD m.last_alert_time cam 0 < m.cooldown_seconds) →
      (check_and_alert m cam nm ty conf t).1 = some (newAlert m cam nm ty conf t) ∧
      (check_and_alert m cam nm ty conf t).2.1 = acceptState m cam nm ty conf t ∧
      newAlert m cam nm ty conf t ∈ (check_and_alert m cam nm ty conf t).2.1.alerts ∧
      dictGetD (check_and_alert m cam nm ty conf t).2.1.last_alert_time cam 0 = t ∧
      (check_and_alert m cam nm ty conf t).2.2.length = m.callbacks.length ∧
      (∀ k : ℕ, (check_and_alert m cam nm ty conf t).2.2[k]? =
        (m.callbacks[k]?).map (fun cb => cb (newAlert m cam nm ty conf t))) := by
  intro m cam nm ty conf t h
  have hacc := check_and_alert_accepted m cam nm ty conf t h
  refine ⟨by simp [hacc], by simp [hacc], ?_, ?_, by simp [hacc], ?_⟩
  · rw [hacc]
    exact mem_pyTrim_append m.alerts (newAlert m cam nm ty conf t)
  · rw [hacc]
    exact acceptState_ledger_same m cam nm ty conf t
  · intro k
    simp [hacc]

/-- Concrete instance of C7_callback_isolation with a raising observer
registered before a well-behaved one. -/
theorem C7_callback_isolation_witness :
    (check_and_alert (AlertManager.init 10 [cbFail, cbOk])
        "cam1" "Main Entrance" "knife" 1 100).1 =
      some (newAlert (AlertManager.init 10 [cbFail, cbOk])
        "cam1" "Main Entrance" "knife" 1 100) ∧
    (check_and_alert (AlertManager.init 10 [cbFail, cbOk])
        "cam1" "Main Entrance" "knife" 1 100).2.1 =
      acceptState (AlertManager.init 10 [cbFail, cbOk])
        "cam1" "Main Entrance" "knife" 1 100 ∧
    newAlert (AlertManager.init 10 [cbFail, cbOk])
        "cam1" "Main Entrance" "knife" 1 100 ∈
      (check_and_alert (AlertManager.init 10 [cbFail, cbOk])
        "cam1" "Main Entrance" "knife" 1 100).2.1.alerts ∧
    dictGetD (check_and_alert (AlertManager.init 10 [cbFail, cbOk])
        "cam1" "Main Entrance" "knife" 1 100).2.1.last_alert_time "cam1" 0 = 100 ∧
    (check_and_alert (AlertManager.init 10 [cbFail, cbOk])
        "cam1" "Main Entrance" "knife" 1 100).2.2.length =
      (AlertManager.init 10 [cbFail, cbOk]).callbacks.length ∧
    (∀ k : ℕ, (check_and_alert (AlertManager.init 10 [cbFail, cbOk])
        "cam1" "Main Entrance" "knife" 1 100).2.2[k]? =
      ((AlertManager.init 10 [cbFail, cbOk]).callbacks[k]?).map
        (fun cb => cb (newAlert (AlertManager.init 10 [cbFail, cbOk])
          "cam1" "Main Entrance" "knife" 1 100))) :=
  C7_callback_isolation (AlertManager.init 10 [cbFail, cbOk])
    "cam1" "Main Entrance" "knife" 1 100
    (by norm_num [AlertManager.init, dictGetD])

/-! ## Double emission of accepted alerts (claim C10) -/

/-- Claim C10: with the app's registered callback list (just on_alert,
app.py line 129), every accepted alert is emitted as a "new_alert" event
twice with the same to_dict payload: once by on_alert from inside
check_and_alert's callback loop, and once more by the process_camera loop
body at app.py lines 57-59. -/
theorem C10_double_emission :
    ∀ (m : AlertManager) (cam nm ty : String) (conf t : ℚ),
      m.callbacks = [on_alert] →
      ¬ (t - dictGetD m.last_alert_time cam 0 < m.cooldown_seconds) →
      (processThreat m cam nm ty conf t).2 =
        [⟨"new_alert", (newAlert m cam nm ty conf t).to_dict⟩,
          ⟨"new_alert", (newAlert m cam nm ty conf t).to_dict⟩] ∧
      (processThreat m cam nm ty conf t).2.length = 2 := by
  intro m cam nm ty conf t hcb h
  have hacc := check_and_alert_accepted m cam nm ty conf t h
  constructor <;> simp [processThreat, hacc, hcb, on_alert]

/-- Concrete instance of C10_double_emission on a fresh manager carrying the
app's callback registration. -/
theorem C10_double_emission_witness :
    (processThreat (AlertManager.init 10 [on_alert])
        "cam1" "Main Entrance" "knife" 1 100).2 =
      [⟨"new_alert", (newAlert (AlertManager.init 10 [on_alert])
          "cam1" "Main Entrance" "knife" 1 100).to_dict⟩,
        ⟨"new_alert", (newAlert (AlertManager.init 10 [on_alert])
          "cam1" "Main Entrance" "knife" 1 100).to_dict⟩] ∧
    (processThreat (AlertManager.init 10 [on_alert])
        "cam1" "Main Entrance" "knife" 1 100).2.length = 2 :=
  C10_double_emission (AlertManager.init 10 [on_alert])
    "cam1" "Main Entrance" "knife" 1 100 rfl
    (by norm_num [AlertManager.init, dictGetD])

/-! ## Capture-loop fps computation (claim C9) -/

/-- Claim C9, counterexample to the claim as stated: after connect, one
successful frame at t = 1, a read failure and a reconnect, the next
successful frame (the FIRST of the new connection session, at t = 3) is
not skipped: last_frame_time still holds 1 from the previous session
(nothing resets it on reconnection, camera.py lines 136-147), so the
iteration computes fps = 1 / (3 - 1) = 1/2, changing fps from 0. -/
theorem C9_counterexample :
    (camRun CameraState.init
      [CamEvent.connectOk, CamEvent.readOk 0 1, CamEvent.readFail,
        CamEvent.connectOk]).fps = 0 ∧
    (camRun CameraState.init
      [CamEvent.connectOk, CamEvent.readOk 0 1, CamEvent.readFail,
        CamEvent.connectOk, CamEvent.readOk 1 3]).fps = 1 / 2 ∧
    ¬ ((camRun CameraState.init
      [CamEvent.connectOk, CamEvent.readOk 0 1, CamEvent.readFail,
        CamEvent.connectOk, CamEvent.readOk 1 3]).fps
      = (camRun CameraState.init
      [CamEvent.connectOk, CamEvent.readOk 0 1, CamEvent.readFail,
        CamEvent.connectOk]).fps) := by
  refine ⟨?_, ?_, ?_⟩ <;>
    norm_num [camRun, camStep, CameraState.init]

/-- Claim C9 (amended): a successful read while connected stores the frame,
recomputes fps = 1 / (t - last_frame_time) whenever last_frame_time > 0 and
leaves fps untouched only when last_frame_time = 0 - which, for positive
clock times, happens only before the first successful frame since the
CameraStream object was created; connect attempts and read failures never
reset last_frame_time, so the first frame of a reconnected session divides
by the delta against the PREVIOUS session's final capture time instead of
being skipped. -/
theorem C9_fps_computation :
    (∀ (s : CameraState) (f : ℕ) (t : ℚ), s.connected = true →
      (camStep s (CamEvent.readOk f t)).last_frame_time = t ∧
      (camStep s (CamEvent.readOk f t)).frame = some f ∧
      (s.last_frame_time > 0 →
        (camStep s (CamEvent.readOk f t)).fps = 1 / (t - s.last_frame_time)) ∧
      (¬ s.last_frame_time > 0 →
        (camStep s (CamEvent.readOk f t)).fps = s.fps)) ∧
    (∀ s : CameraState,
      (camStep s CamEvent.connectOk).last_frame_time = s.last_frame_time ∧
      (camStep s CamEvent.connectFail).last_frame_time = s.last_frame_time ∧
      (camStep s CamEvent.readFail).last_frame_time = s.last_frame_time) ∧
    CameraState.init.last_frame_time = 0 := by
  refine ⟨?_, ?_, rfl⟩
  · intro s f t hc
    refine ⟨?_, ?_, ?_, ?_⟩ <;> simp [camStep, hc] <;> intro h <;> simp [h]
  · intro s
    refine ⟨?_, ?_, ?_⟩ <;> by_cases hc : s.connected <;> simp [camStep, hc]

/-- Concrete instance of C9_fps_computation at the state reached after a
reconnect with a stale last_frame_time of 1. -/
theorem C9_fps_computation_witness :
    (camStep ⟨true, some 0, 1, 0, 1⟩ (CamEvent.readOk 1 3)).last_frame_time = 3 ∧
    (camStep ⟨true, some 0, 1, 0, 1⟩ (CamEvent.readOk 1 3)).frame = some 1 ∧
    ((1 : ℚ) > 0 →
      (camStep ⟨true, some 0, 1, 0, 1⟩ (CamEvent.readOk 1 3)).fps = 1 / (3 - 1)) ∧
    (¬ (1 : ℚ) > 0 →
      (camStep ⟨true, some 0, 1, 0, 1⟩ (CamEvent.readOk 1 3)).fps = 0) :=
  C9_fps_computation.1 ⟨true, some 0, 1, 0, 1⟩ 1 3 rfl

/-! ## The unlocked counter race (claim C2) -/

/-- A thread of app.py's per-camera loop submitting a cam1 threat at
time 100. -/
def threadA : ThreadState := newThread "cam1" "Main Entrance" "knife" 1 100

/-- A second thread submitting a cam2 threat at the same instant. -/
def threadB : ThreadState := newThread "cam2" "Hallway A" "knife" 1 100

/-- Claim C2 fails on the code: AlertManager takes no lock, so the CPython
scheduler may interleave two check_and_alert calls between the load and the
store of line 72.  Under the schedule A:check, A:load, B:check, B:load,
A:store, A:create, B:store, B:create both threads read counter 0, both
store 1, and both alerts get the identifier alertId 1 - a duplicate - while
the counter records a single acceptance (one increment lost).  The same
eight micro-steps run without interleaving (A first, then B) assign the
distinct identifiers alertId 1 and alertId 2 and counter 2, as the claim
expects of atomic execution. -/
theorem C2_race :
    ((schedRun [true, true, false, false, true, true, false, false]
        (AlertManager.init 10 []) threadA threadB).1.alerts.map Alert.id
      = [alertId 1, alertId 1]) ∧
    ((schedRun [true, true, false, false, true, true, false, false]
        (AlertManager.init 10 []) threadA threadB).1.alert_counter = 1) ∧
    ((schedRun [true, true, true, true, false, false, false, false]
        (AlertManager.init 10 []) threadA threadB).1.alerts.map Alert.id
      = [alertId 1, alertId 2]) ∧
    ((schedRun [true, true, true, true, false, false, false, false]
        (AlertManager.init 10 []) threadA threadB).1.alert_counter = 2) := by
  have hne : ("cam1" : String) ≠ "cam2" := by decide
  refine ⟨?_, ?_, ?_, ?_⟩ <;>
    norm_num [schedRun, opStep, threadA, threadB, newThread, AlertManager.init,
      dictGetD, dictSet, pyTrim, lastN, hne]

/-! ## Run invariant: counter, identifiers and bounded history (C3, C4) -/

lemma lastN_of_length_le (l : List α) (n : ℕ) (h : l.length ≤ n) :
    lastN n l = l := by
  have : l.length - n = 0 := by omega
  simp [lastN, this]

lemma pyTrim_lastN_append (pre : List Alert) (a : Alert) :
    pyTrim (lastN 100 pre ++ [a]) = lastN 100 (pre ++ [a]) := by
  by_cases h : pre.length < 100
  · have h1 : lastN 100 pre = pre := lastN_of_length_le pre 100 (by omega)
    have h2 : ¬ (pre ++ [a]).length > 100 := by
      simp
      omega
    rw [h1, pyTrim, if_neg h2, lastN_of_length_le _ 100 (by simp; omega)]
  · have h100 : (lastN 100 pre).length = 100 := by
      rw [lastN_length]
      omega
    have hgt : (lastN 100 pre ++ [a]).length > 100 := by
      simp [h100]
    have hone : (lastN 100 pre ++ [a]).length - 100 = 1 := by
      simp [h100]
    have hamt : (pre ++ [a]).length - 100 ≤ pre.length := by
      simp
    calc pyTrim (lastN 100 pre ++ [a])
        = lastN 100 (lastN 100 pre ++ [a]) := by rw [pyTrim, if_pos hgt]
      _ = List.drop 1 (lastN 100 pre ++ [a]) := by rw [lastN, hone]
      _ = List.drop 1 (lastN 100 pre) ++ [a] :=
          List.drop_append_of_le_length (by omega)
      _ = List.drop (pre.length - 100 + 1) pre ++ [a] := by
          rw [lastN, List.drop_drop]
      _ = List.drop ((pre ++ [a]).length - 100) pre ++ [a] := by
          have harith : pre.length - 100 + 1 = (pre ++ [a]).length - 100 := by
            simp
            omega
          rw [harith]
      _ = List.drop ((pre ++ [a]).length - 100) (pre ++ [a]) :=
          (List.drop_append_of_le_length hamt).symm
      _ = lastN 100 (pre ++ [a]) := rfl

lemma acceptedOf_none_cons (rest : List (Option Alert)) :
    acceptedOf (none :: rest) = acceptedOf rest := by
  simp [acceptedOf]

lemma acceptedOf_some_cons (a : Alert) (rest : List (Option Alert)) :
    acceptedOf (some a :: rest) = a :: acceptedOf rest := by
  simp [acceptedOf]

lemma run_invariant_gen :
    ∀ (calls : List ObsCall) (m : AlertManager) (pre : List Alert),
      m.alert_counter = pre.length →
      m.alerts = lastN 100 pre →
      (runCalls m calls).1.alert_counter
          = pre.length + (acceptedOf (runCalls m calls).2).length ∧
      (runCalls m calls).1.alerts
          = lastN 100 (pre ++ acceptedOf (runCalls m calls).2) ∧
      (∀ i, i < (acceptedOf (runCalls m calls).2).length →
        ((acceptedOf (runCalls m calls).2)[i]?).map Alert.id
          = some (alertId (pre.length + i + 1))) := by
  intro calls
  induction calls with
  | nil =>
    intro m pre hc ha
    simp [runCalls_nil, acceptedOf, hc, ha]
  | cons c cs ih =>
    intro m pre hc ha
    by_cases h : c.time - dictGetD m.last_alert_time c.camera_id 0
        < m.cooldown_seconds
    · have hsup := check_and_alert_suppressed m c.camera_id c.camera_name
        c.threat_type c.confidence c.time h
      rw [runCalls_cons]
      simp only [hsup, acceptedOf_none_cons]
      exact ih m pre hc ha
    · have hacc := check_and_alert_accepted m c.camera_id c.camera_name
        c.threat_type c.confidence c.time h
      have hca : (acceptState m c.camera_id c.camera_name c.threat_type
          c.confidence c.time).alert_counter
          = (pre ++ [newAlert m c.camera_id c.camera_name c.threat_type
              c.confidence c.time]).length := by
        simp [acceptState, hc]
      have haa : (acceptState m c.camera_id c.camera_name c.threat_type
          c.confidence c.time).alerts
          = lastN 100 (pre ++ [newAlert m c.camera_id c.camera_name
              c.threat_type c.confidence c.time]) := by
        simp only [acceptState]
        rw [ha]
        exact pyTrim_lastN_append pre _
      obtain ⟨ih1, ih2, ih3⟩ := ih (acceptState m c.camera_id c.camera_name
        c.threat_type c.confidence c.time)
        (pre ++ [newAlert m c.camera_id c.camera_name c.threat_type
          c.confidence c.time]) hca haa
      rw [runCalls_cons]
      simp only [hacc, acceptedOf_some_cons]
      refine ⟨?_, ?_, ?_⟩
      · rw [ih1]
        simp
        omega
      · rw [ih2]
        congr 1
        simp
      · have hlen : (pre ++ [newAlert m c.camera_id c.camera_name c.threat_type
            c.confidence c.time]).length = pre.length + 1 := by simp
        rw [hlen] at ih3
        have hid : (newAlert m c.camera_id c.camera_name c.threat_type
            c.confidence c.time).id = alertId (pre.length + 1) := by
          simp [newAlert, hc]
        intro i hi
        cases i with
        | zero =>
          simp [hid]
        | succ i =>
          have hi' : i < (acceptedOf (runCalls (acceptState m c.camera_id
              c.camera_name c.threat_type c.confidence c.time) cs).2).length := by
            simpa using hi
          rw [List.getElem?_cons_succ, ih3 i hi']
          congr 2
          omega

/-- The manager state after running a call sequence from a fresh manager. -/
def finalManager (cd : ℚ) (cbs : List Callback) (calls : List ObsCall) :
    AlertManager :=
  (runCalls (AlertManager.init cd cbs) calls).1

/-- The alerts accepted while running a call sequence from a fresh
manager, in acceptance order. -/
def acceptedRun (cd : ℚ) (cbs : List Callback) (calls : List ObsCall) :
    List Alert :=
  acceptedOf (runCalls (AlertManager.init cd cbs) calls).2

/-- Claim C3: over any sequence of check_and_alert calls from a fresh
manager, the counter counts exactly the acceptances (one increment each, no
loss), and the i-th accepted alert (0-based) carries the identifier built
from counter value i+1 - so identifiers are assigned in creation order with
strictly increasing, gap-free counter values and are pairwise distinct. -/
theorem C3_identifiers :
    ∀ (cd : ℚ) (cbs : List Callback) (calls : List ObsCall),
      (finalManager cd cbs calls).alert_counter
          = (acceptedRun cd cbs calls).length ∧
      (∀ i, i < (acceptedRun cd cbs calls).length →
        ((acceptedRun cd cbs calls)[i]?).map Alert.id = some (alertId (i + 1))) ∧
      ((acceptedRun cd cbs calls).map Alert.id).Nodup := by
  intro cd cbs calls
  obtain ⟨h1, h2, h3⟩ := run_invariant_gen calls (AlertManager.init cd cbs) []
    rfl rfl
  refine ⟨by simpa [finalManager, acceptedRun] using h1, ?_, ?_⟩
  · intro i hi
    have := h3 i (by simpa [acceptedRun] using hi)
    simpa [acceptedRun] using this
  · have hmap : (acceptedRun cd cbs calls).map Alert.id
        = (List.range (acceptedRun cd cbs calls).length).map
            (fun i => alertId (i + 1)) := by
      apply List.ext_getElem?
      intro i
      by_cases hi : i < (acceptedRun cd cbs calls).length
      · rw [List.getElem?_map, List.getElem?_map, List.getElem?_range hi]
        have := h3 i (by simpa [acceptedRun] using hi)
        simpa [acceptedRun] using this
      · rw [List.getElem?_map, List.getElem?_map,
          List.getElem?_eq_none (by simpa using Nat.le_of_not_lt hi),
          List.getElem?_eq_none (by simp; omega)]
        rfl
    rw [hmap]
    apply List.Nodup.map
    · intro x y hxy
      have := alertId_injective hxy
      omega
    · exact List.nodup_range _

/-- Claim C4: after any sequence of calls from a fresh manager the history
holds at most 100 alerts - exactly the last 100 accepted ones (the oldest
beyond that bound are dropped); once more than 100 alerts have been
accepted, the history holds exactly 100 and get_recent_alerts(100) returns
precisely their snapshots most-recent first; and the id of an evicted
alert (position i with i + 100 < total acceptances) matches nothing:
acknowledge_alert on it returns false and changes no state. -/
theorem C4_bounded_history :
    ∀ (cd : ℚ) (cbs : List Callback) (calls : List ObsCall),
      (finalManager cd cbs calls).alerts.length ≤ 100 ∧
      (finalManager cd cbs calls).alerts = lastN 100 (acceptedRun cd cbs calls) ∧
      (100 < (acceptedRun cd cbs calls).length →
        (finalManager cd cbs calls).alerts.length = 100 ∧
        get_recent_alerts (finalManager cd cbs calls) 100
          = ((lastN 100 (acceptedRun cd cbs calls)).reverse).map Alert.to_dict) ∧
      (∀ i (s : String), i + 100 < (acceptedRun cd cbs calls).length →
        ((acceptedRun cd cbs calls)[i]?).map Alert.id = some s →
        acknowledge_alert (finalManager cd cbs calls) s
          = (false, finalManager cd cbs calls)) := by
  intro cd cbs calls
  obtain ⟨h1, h2, h3⟩ := run_invariant_gen calls (AlertManager.init cd cbs) []
    rfl rfl
  have halerts : (finalManager cd cbs calls).alerts
      = lastN 100 (acceptedRun cd cbs calls) := by
    simpa [finalManager, acceptedRun] using h2
  have hlen : (finalManager cd cbs calls).alerts.length
      = min 100 (acceptedRun cd cbs calls).length := by
    rw [halerts, lastN_length]
  refine ⟨by omega, halerts, ?_, ?_⟩
  · intro hbig
    have hlen100 : (finalManager cd cbs calls).alerts.length = 100 := by omega
    refine ⟨hlen100, ?_⟩
    have h0 : (100 : ℕ) ≠ 0 := by norm_num
    have hsub : lastN 100 (finalManager cd cbs calls).alerts
        = (finalManager cd cbs calls).alerts :=
      lastN_of_length_le _ 100 (by omega)
    simp only [get_recent_alerts, pySliceLast, h0, if_neg, not_false_iff]
    rw [hsub, halerts]
  · have h3r : ∀ i, i < (acceptedRun cd cbs calls).length →
        ((acceptedRun cd cbs calls)[i]?).map Alert.id = some (alertId (i + 1)) := by
      intro i hi
      have := h3 i (by simpa [acceptedRun] using hi)
      simpa [acceptedRun] using this
    intro i s hi hs
    have hid_s : s = alertId (i + 1) := by
      have := h3r i (by omega)
      rw [this] at hs
      simpa using hs.symm
    have hnomatch : ∀ b ∈ (finalManager cd cbs calls).alerts, b.id ≠ s := by
      intro b hb
      rw [halerts] at hb
      simp only [lastN] at hb
      obtain ⟨j, hj, hbj⟩ := List.getElem_of_mem hb
      have hj' : ((acceptedRun cd cbs calls).drop
          ((acceptedRun cd cbs calls).length - 100))[j]?
          = some b := by
        rw [List.getElem?_eq_getElem hj, hbj]
      rw [List.getElem?_drop] at hj'
      have hjlen : (acceptedRun cd cbs calls).length - 100 + j
          < (acceptedRun cd cbs calls).length := by
        simp only [List.length_drop] at hj
        omega
      have hidb := h3r ((acceptedRun cd cbs calls).length - 100 + j) hjlen
      rw [hj'] at hidb
      simp only [Option.map_some'] at hidb
      have hbid : b.id
          = alertId ((acceptedRun cd cbs calls).length - 100 + j + 1) := by
        simpa using hidb
      rw [hbid, hid_s]
      intro hcontra
      have := alertId_injective hcontra
      omega
    have hack := ackFirst_not_found s (finalManager cd cbs calls).alerts hnomatch
    simp [acknowledge_alert, hack]
